import Mathlib

/-!
Verification development for the zero-copy data loader
(`zero_copy_loader` Python package).

The Python wrapper (`src/python-bindings/python/zero_copy_loader/__init__.py`)
is embedded shallowly below: byte buffers are `List Nat`, numeric arrays are
structures carrying a dtype, a shape and the raw bytes, and fallible
operations return `Except Err`.  The Rust core behind `PyDataLoader` is not
part of the sources; where a claim depends on it, the relevant operation is
modelled from the specification (each such definition says so in its doc
comment).
-/

namespace ZeroCopyLoader

/-- Error taxonomy of the system (spec §7) together with the Python-level
failure raised by NumPy on a size mismatch, which realises the downstream
`ShapeMismatch` contract. -/
inductive Err where
  | IOError
  | ShardFormatError
  | IndexOutOfRange
  | PrefetchFailure
  | ShapeMismatch
  | UnsupportedDtype
deriving DecidableEq, Repr

/-- NumPy element types appearing in the dispatch table of `to_torch`
(`__init__.py` lines 128–134). -/
inductive NpDtype where
  | float32
  | float64
  | int32
  | int64
  | uint8
deriving DecidableEq, Repr

/-- Size in bytes of one element of each NumPy dtype. -/
def NpDtype.itemsize : NpDtype → Nat
  | .float32 => 4
  | .float64 => 8
  | .int32 => 4
  | .int64 => 8
  | .uint8 => 1

/-- PyTorch element types appearing in the dispatch table of `to_torch`
(`__init__.py` lines 137–143). -/
inductive TorchDtype where
  | float32
  | float64
  | int32
  | int64
  | uint8
deriving DecidableEq, Repr

/-- The dictionary lookup
`{"float32": np.float32, ...}.get(dtype, np.float32)` from `to_torch`
(`__init__.py` lines 128–134): an unrecognised tag falls back to the
dictionary default `np.float32`. -/
def npDtypeOf (dtype : String) : NpDtype :=
  if dtype = "float32" then .float32
  else if dtype = "float64" then .float64
  else if dtype = "int32" then .int32
  else if dtype = "int64" then .int64
  else if dtype = "uint8" then .uint8
  else .float32

/-- The dictionary lookup
`{"float32": torch.float32, ...}.get(dtype, torch.float32)` from `to_torch`
(`__init__.py` lines 137–143): an unrecognised tag falls back to the
dictionary default `torch.float32`. -/
def torchDtypeOf (dtype : String) : TorchDtype :=
  if dtype = "float32" then .float32
  else if dtype = "float64" then .float64
  else if dtype = "int32" then .int32
  else if dtype = "int64" then .int64
  else if dtype = "uint8" then .uint8
  else .float32

/-- The closed set of dtype tags recognised by both dispatch tables of
`to_torch`. -/
def supportedDtypeTags : List String :=
  ["float32", "float64", "int32", "int64", "uint8"]

/-- The Python `shape` argument of `to_numpy` / `to_torch`: either a single
integer or a tuple of integers (`Union[Tuple[int, ...], int]`). -/
inductive PyShape where
  | ofInt (n : Nat)
  | ofTuple (dims : List Nat)
deriving DecidableEq, Repr

/-- The normalisation `if isinstance(shape, int): shape = (shape,)`
performed by both conversion functions (`__init__.py` lines 96–97 and
124–125). -/
def PyShape.toDims : PyShape → List Nat
  | .ofInt n => [n]
  | .ofTuple dims => dims

/-- A one-dimensional NumPy array as produced by `np.frombuffer`: a dtype
together with the raw underlying bytes (zero elements of padding; the
element count is `data.length / dtype.itemsize`). -/
structure Np1D where
  dtype : NpDtype
  data : List Nat
deriving DecidableEq, Repr

/-- A shaped NumPy array as produced by `reshape`. -/
structure NpArray where
  dtype : NpDtype
  shape : List Nat
  data : List Nat
deriving DecidableEq, Repr

/-- Embeds `np.frombuffer(buffer, dtype=dtype)`: interprets the buffer as a flat
array of elements of the given dtype.  NumPy raises `ValueError` when the
buffer length is not a multiple of the element size; that failure is the
shape-mismatch rejection of the downstream contract. -/
def frombuffer (buffer : List Nat) (dtype : NpDtype) : Except Err Np1D :=
  if buffer.length % dtype.itemsize = 0 then
    .ok { dtype := dtype, data := buffer }
  else
    .error .ShapeMismatch

/-- Embeds `array.reshape(shape)`: succeeds exactly when the element count of the
flat array equals the product of the requested dimensions; otherwise NumPy
raises `ValueError` (the shape-mismatch rejection). -/
def Np1D.reshape (arr : Np1D) (shape : List Nat) : Except Err NpArray :=
  if shape.prod = arr.data.length / arr.dtype.itemsize then
    .ok { dtype := arr.dtype, shape := shape, data := arr.data }
  else
    .error .ShapeMismatch

/-- Embeds `to_numpy(buffer, dtype, shape)` (`__init__.py` lines 81–101):
normalises an integer shape to a 1-tuple, then performs
`np.frombuffer(buffer, dtype=dtype).reshape(shape)`. -/
def to_numpy (buffer : List Nat) (dtype : NpDtype) (shape : PyShape) :
    Except Err NpArray :=
  match frombuffer buffer dtype with
  | .error e => .error e
  | .ok arr => arr.reshape shape.toDims

/-- A PyTorch tensor as produced by `torch.from_numpy(array).to(dtype)`. -/
structure TorchTensor where
  dtype : TorchDtype
  shape : List Nat
  data : List Nat
deriving DecidableEq, Repr

/-- Embeds `to_torch(buffer, dtype, shape)` (`__init__.py` lines 104–145).
`torchAvailable` models whether `import torch` succeeds: when it does not,
the `except ImportError` handler returns `None` (here `Except.ok none`).
Otherwise the dtype tag is dispatched through the two dictionaries with
their `float32` defaults, the buffer is converted through `to_numpy`, and
the resulting array is wrapped as a tensor. -/
def to_torch (torchAvailable : Bool) (buffer : List Nat) (dtype : String)
    (shape : PyShape) : Except Err (Option TorchTensor) :=
  if torchAvailable = false then
    .ok none
  else
    match to_numpy buffer (npDtypeOf dtype) shape with
    | .error e => .error e
    | .ok arr =>
      .ok (some { dtype := torchDtypeOf dtype, shape := arr.shape, data := arr.data })

example : to_numpy [0, 0, 0, 0] .float32 (.ofInt 1) =
    .ok { dtype := .float32, shape := [1], data := [0, 0, 0, 0] } := rfl

example : to_numpy [0, 0, 0] .float32 (.ofInt 1) = .error .ShapeMismatch := rfl

example : to_torch false [0] "bogus" (.ofInt 1) = .ok none := rfl

example : to_torch true [0, 0, 0, 0] "float16" (.ofInt 1) =
    .ok (some { dtype := .float32, shape := [1], data := [0, 0, 0, 0] }) := rfl

/-- Modelled from the spec: the Rust core behind `PyDataLoader` is not among
the sources.  A shard descriptor (spec §3) holds the shard's mapped bytes
and its local index of `(offset, length)` pairs, one per sample. -/
structure ShardDescriptor where
  data : List Nat
  local_index : List (Nat × Nat)
deriving DecidableEq, Repr

/-- Modelled from the spec: the Loader aggregates the catalog of shard
descriptors in the order the shard paths were supplied (spec §3, §4.1). -/
structure Loader where
  shards : List ShardDescriptor
deriving DecidableEq, Repr

/-- Modelled from the spec: `total_samples == sum(shard.sample_count)`
(spec §3); exposed by the wrapper property `DataLoader.total_samples`. -/
def Loader.total_samples (l : Loader) : Nat :=
  (l.shards.map (fun d => d.local_index.length)).sum

/-- Modelled from the spec: `num_shards`, the number of shard files
(spec §4.4); exposed by the wrapper property `DataLoader.num_shards`. -/
def Loader.num_shards (l : Loader) : Nat :=
  l.shards.length

/-- Modelled from the spec: the Sample Resolver (spec §4.3) maps a global
sample index to the owning shard and the sample's `(offset, length)` within
it, by walking the shard sample counts in catalog order; `none` corresponds
to `IndexOutOfRange`. -/
def resolve : List ShardDescriptor → Nat → Option (ShardDescriptor × Nat × Nat)
  | [], _ => none
  | d :: rest, g =>
    match d.local_index[g]? with
    | some entry => some (d, entry)
    | none => resolve rest (g - d.local_index.length)

/-- Modelled from the spec: `get_sample(index)` (spec §4.4) resolves the
index and returns the bytes of the range `[offset, offset + length)` of the
owning shard's mapping, failing with `IndexOutOfRange` when
`index >= total_samples`.  The Python wrapper wraps the returned bytes in a
`memoryview` (see `DataLoader.get_sample` below). -/
def Loader.get_sample (l : Loader) (index : Nat) : Except Err (List Nat) :=
  match resolve l.shards index with
  | none => .error .IndexOutOfRange
  | some (d, off, len) => .ok ((d.data.drop off).take len)

/-- Modelled from the spec: `get_batch(indices)` (spec §4.4) resolves the
indices left to right, fail-fast: the first failing index aborts the whole
call and no partial result is produced. -/
def Loader.get_batch (l : Loader) : List Nat → Except Err (List (List Nat))
  | [] => .ok []
  | i :: rest =>
    match l.get_sample i with
    | .error e => .error e
    | .ok v =>
      match l.get_batch rest with
      | .error e => .error e
      | .ok vs => .ok (v :: vs)

/-- Concatenation of variable-length sample blobs into a shard's payload
region (spec §6). -/
def writePayload (samples : List (List Nat)) : List Nat :=
  samples.flatten

/-- The local index table written for a shard: one `(offset, length)` pair
per sample, offsets accumulating from `off` (spec §6). -/
def buildIndex : List (List Nat) → Nat → List (Nat × Nat)
  | [], _ => []
  | s :: rest, off => (off, s.length) :: buildIndex rest (off + s.length)

/-- Writing a shard from a list of samples and opening it again: the
descriptor whose mapping is the payload region and whose local index
describes each written sample (spec §4.1, §6). -/
def writeShard (samples : List (List Nat)) : ShardDescriptor :=
  { data := writePayload samples, local_index := buildIndex samples 0 }

/-- A loader opened over a valid shard set written from the given per-shard
sample lists. -/
def Loader.ofSamples (shards : List (List (List Nat))) : Loader :=
  { shards := shards.map writeShard }

example : (Loader.ofSamples [[[1, 2], [3]], [[4, 5, 6]]]).total_samples = 3 := rfl

example : (Loader.ofSamples [[[1, 2], [3]], [[4, 5, 6]]]).get_sample 2 =
    .ok [4, 5, 6] := rfl

example : (Loader.ofSamples [[[1, 2], [3]], [[4, 5, 6]]]).get_sample 3 =
    .error .IndexOutOfRange := rfl

example : (Loader.ofSamples [[[1, 2], [3]], [[4, 5, 6]]]).get_batch [2, 0, 2] =
    .ok [[4, 5, 6], [1, 2], [4, 5, 6]] := rfl

example : (Loader.ofSamples [[[1, 2], [3]], [[4, 5, 6]]]).get_batch [0, 7, 1] =
    .error .IndexOutOfRange := rfl

/-- The kind of Python object a buffer view is taken over: the Rust binding
returns `bytes` objects, which are immutable. -/
inductive PyBufKind where
  | bytesObj
  | bytearrayObj
deriving DecidableEq, Repr

/-- A Python `memoryview`: a view over an exporting object's buffer,
carrying the `readonly` flag CPython assigns from the exporter's kind
(`memoryview(b)` over `bytes` is read-only; over `bytearray` it is
writable). -/
structure MemView where
  readonly : Bool
  data : List Nat
deriving DecidableEq, Repr

/-- Embeds `memoryview(obj)`: CPython sets `readonly = True` exactly when the
exporter's buffer is immutable, as it is for `bytes`. -/
def memoryview (kind : PyBufKind) (data : List Nat) : MemView :=
  { readonly := (kind = .bytesObj), data := data }

/-- Python-level exceptions a write through a memoryview can raise. -/
inductive PyError where
  | TypeError
  | IndexError
deriving DecidableEq, Repr

/-- A write `view[i] = val` through a memoryview: CPython raises
`TypeError: cannot modify read-only memory` when the view is read-only. -/
def MemView.store (v : MemView) (i val : Nat) : Except PyError MemView :=
  if v.readonly then .error .TypeError
  else if i < v.data.length then .ok { v with data := v.data.set i val }
  else .error .IndexError

/-- Embeds `DataLoader.get_sample` of the Python wrapper (`__init__.py` lines
34–44): calls the core `get_sample` and wraps the returned `bytes` object
in a `memoryview`. -/
def DataLoader.get_sample (l : Loader) (index : Nat) : Except Err MemView :=
  match l.get_sample index with
  | .error e => .error e
  | .ok bytes_obj => .ok (memoryview .bytesObj bytes_obj)

/-- Embeds `DataLoader.get_batch` of the Python wrapper (`__init__.py` lines
46–56): calls the core `get_batch` and wraps each returned `bytes` object
in a `memoryview`. -/
def DataLoader.get_batch (l : Loader) (indices : List Nat) :
    Except Err (List MemView) :=
  match l.get_batch indices with
  | .error e => .error e
  | .ok bs => .ok (bs.map (memoryview .bytesObj))

/-- Per-shard readiness state of the Prefetch Scheduler (spec §3). -/
inductive ShardReadiness where
  | Unmapped
  | Mapping
  | Ready
  | Failed
deriving DecidableEq, Repr

/-- Modelled from the spec: the mutable prefetch state of the Loader — the
readiness of each shard plus the next shard index beyond the highest one
already resolved or queued (spec §4.5). -/
structure PrefetchState where
  readiness : List ShardReadiness
  nextShard : Nat
deriving DecidableEq, Repr

/-- Modelled from the spec: submitting an asynchronous readahead request
transitions an `Unmapped` shard to `Mapping`; a shard already `Mapping` or
`Ready` (or `Failed`) is skipped, never double-submitted (spec §4.5). -/
def submitReadahead : ShardReadiness → ShardReadiness
  | .Unmapped => .Mapping
  | r => r

/-- Modelled from the spec: the core `prefetch_next(count)` identifies the
next `count` shards beyond `nextShard` and submits a readahead request for
each currently `Unmapped` one (spec §4.5). -/
def corePrefetchNext (s : PrefetchState) (count : Nat) : PrefetchState :=
  { readiness := s.readiness.mapIdx (fun i r =>
      if s.nextShard ≤ i ∧ i < s.nextShard + count then submitReadahead r else r),
    nextShard := s.nextShard + count }

/-- Embeds `DataLoader.prefetch_next` of the Python wrapper (`__init__.py`
lines 58–64): the signature is `def prefetch_next(self, count: int = 1)`,
so the count argument is optional with default `1`; `none` models a call
with the argument omitted. -/
def DataLoader.prefetch_next (s : PrefetchState) (count : Option Nat) :
    PrefetchState :=
  corePrefetchNext s (count.getD 1)

/-! ## Helper lemmas -/

theorem NpDtype.itemsize_pos (d : NpDtype) : 0 < d.itemsize := by
  cases d <;> simp [itemsize]

/-- Closed form of `to_numpy`: it succeeds exactly when the buffer's byte
length equals `product(shape) * itemsize(dtype)`, and otherwise rejects
with the shape-mismatch failure. -/
theorem to_numpy_eq (buffer : List Nat) (dtype : NpDtype) (shape : PyShape) :
    to_numpy buffer dtype shape =
      if buffer.length = shape.toDims.prod * dtype.itemsize then
        .ok { dtype := dtype, shape := shape.toDims, data := buffer }
      else
        .error .ShapeMismatch := by
  have hpos : 0 < dtype.itemsize := dtype.itemsize_pos
  by_cases hmod : buffer.length % dtype.itemsize = 0
  · have hdvd : dtype.itemsize ∣ buffer.length := Nat.dvd_of_mod_eq_zero hmod
    by_cases hdiv : shape.toDims.prod = buffer.length / dtype.itemsize
    · have hlen : buffer.length = shape.toDims.prod * dtype.itemsize := by
        rw [hdiv, Nat.div_mul_cancel hdvd]
      have hcancel : shape.toDims.prod * dtype.itemsize / dtype.itemsize =
          shape.toDims.prod := Nat.mul_div_cancel _ hpos
      simp [to_numpy, frombuffer, Np1D.reshape, hlen, hcancel, Nat.mul_mod_left]
    · have hlen : buffer.length ≠ shape.toDims.prod * dtype.itemsize := by
        intro h
        exact hdiv (by rw [h, Nat.mul_div_cancel _ hpos])
      simp [to_numpy, frombuffer, Np1D.reshape, hmod, hdiv, hlen]
  · have hlen : buffer.length ≠ shape.toDims.prod * dtype.itemsize := by
      intro h
      exact hmod (by rw [h, Nat.mul_mod_left])
    simp [to_numpy, frombuffer, hmod, hlen]

/-- Closed form of `to_torch` when the `torch` import succeeds. -/
theorem to_torch_true_eq (buffer : List Nat) (dtype : String) (shape : PyShape) :
    to_torch true buffer dtype shape =
      if buffer.length = shape.toDims.prod * (npDtypeOf dtype).itemsize then
        .ok (some { dtype := torchDtypeOf dtype, shape := shape.toDims,
                    data := buffer })
      else
        .error .ShapeMismatch := by
  by_cases hc : buffer.length = shape.toDims.prod * (npDtypeOf dtype).itemsize
  · simp [to_torch, to_numpy_eq, hc]
  · simp [to_torch, to_numpy_eq, hc]

/-- The resolver finds no entry exactly when the global index is at least
the total sample count. -/
theorem resolve_eq_none_iff (shards : List ShardDescriptor) (g : Nat) :
    resolve shards g = none ↔
      (shards.map (fun d => d.local_index.length)).sum ≤ g := by
  induction shards generalizing g with
  | nil => simp [resolve]
  | cons d rest ih =>
    simp only [resolve, List.map_cons, List.sum_cons]
    cases hget : d.local_index[g]? with
    | some entry =>
      have hlt : g < d.local_index.length := by
        by_contra hge
        rw [List.getElem?_eq_none (Nat.le_of_not_lt hge)] at hget
        cases hget
      simp only [hget]
      have hr : ¬ (d.local_index.length +
          (rest.map (fun d => d.local_index.length)).sum ≤ g) := by omega
      simp [hr]
    | none =>
      have hge : d.local_index.length ≤ g := List.getElem?_eq_none_iff.mp hget
      simp only [hget]
      rw [ih]
      omega

/-- The only error `get_sample` ever produces is `IndexOutOfRange`. -/
theorem Loader.get_sample_error_eq (l : Loader) (i : Nat) (e : Err)
    (h : l.get_sample i = .error e) : e = .IndexOutOfRange := by
  unfold Loader.get_sample at h
  cases hr : resolve l.shards i with
  | none => rw [hr] at h; cases h; rfl
  | some entry =>
    rw [hr] at h
    obtain ⟨d, off, len⟩ := entry
    cases h

/-- Failure characterisation of the core `get_sample`. -/
theorem Loader.get_sample_error_iff (l : Loader) (i : Nat) :
    l.get_sample i = .error .IndexOutOfRange ↔ l.total_samples ≤ i := by
  unfold Loader.get_sample Loader.total_samples
  cases hr : resolve l.shards i with
  | none => simp [resolve_eq_none_iff l.shards i |>.mp hr]
  | some entry =>
    obtain ⟨d, off, len⟩ := entry
    have : ¬ (l.shards.map (fun d => d.local_index.length)).sum ≤ i := by
      intro hle
      rw [(resolve_eq_none_iff l.shards i).mpr hle] at hr
      cases hr
    simp [this]

/-- A valid index always yields a sample from the core `get_sample`. -/
theorem Loader.get_sample_ok_of_lt (l : Loader) (i : Nat)
    (h : i < l.total_samples) : ∃ b, l.get_sample i = .ok b := by
  unfold Loader.get_sample
  cases hr : resolve l.shards i with
  | none =>
    have := (resolve_eq_none_iff l.shards i).mp hr
    exact absurd this (by unfold Loader.total_samples at h; omega)
  | some entry =>
    obtain ⟨d, off, len⟩ := entry
    exact ⟨(d.data.drop off).take len, rfl⟩

/-- The wrapper `DataLoader.get_sample` fails exactly as the core does. -/
theorem DataLoader.get_sample_error_iff_core (l : Loader) (i : Nat) (e : Err) :
    DataLoader.get_sample l i = .error e ↔ l.get_sample i = .error e := by
  unfold DataLoader.get_sample
  cases h : l.get_sample i <;> simp

/-- Success characterisation of the core `get_batch`: one sample per input
index, in input order. -/
theorem Loader.get_batch_ok_spec (l : Loader) (indices : List Nat)
    (bs : List (List Nat)) (h : l.get_batch indices = .ok bs) :
    bs.length = indices.length ∧
    ∀ (k i : Nat), indices[k]? = some i →
      ∃ b, bs[k]? = some b ∧ l.get_sample i = .ok b := by
  induction indices generalizing bs with
  | nil =>
    unfold Loader.get_batch at h
    cases h
    simp
  | cons j rest ih =>
    unfold Loader.get_batch at h
    cases hs : l.get_sample j with
    | error e => rw [hs] at h; cases h
    | ok b =>
      rw [hs] at h
      cases hrest : l.get_batch rest with
      | error e => rw [hrest] at h; cases h
      | ok vs =>
        rw [hrest] at h
        cases h
        obtain ⟨hlen, hspec⟩ := ih vs hrest
        refine ⟨by simp [hlen], ?_⟩
        intro k i hk
        cases k with
        | zero =>
          rw [List.getElem?_cons_zero] at hk
          cases hk
          exact ⟨b, List.getElem?_cons_zero, hs⟩
        | succ k =>
          rw [List.getElem?_cons_succ] at hk
          obtain ⟨b, hb, hsb⟩ := hspec k i hk
          exact ⟨b, by simpa using hb, hsb⟩

/-- Fail-fast characterisation of the core `get_batch`: any invalid index
makes the whole call fail with `IndexOutOfRange`. -/
theorem Loader.get_batch_error_of_invalid (l : Loader) (indices : List Nat)
    (k i : Nat) (hk : indices[k]? = some i) (hi : l.total_samples ≤ i) :
    l.get_batch indices = .error .IndexOutOfRange := by
  induction indices generalizing k with
  | nil => simp at hk
  | cons j rest ih =>
    unfold Loader.get_batch
    cases hs : l.get_sample j with
    | error e =>
      have he : e = .IndexOutOfRange := Loader.get_sample_error_eq l j e hs
      subst he
      rfl
    | ok b =>
      cases k with
      | zero =>
        rw [List.getElem?_cons_zero] at hk
        cases hk
        have := (Loader.get_sample_error_iff l i).mpr hi
        rw [hs] at this
        cases this
      | succ k =>
        rw [List.getElem?_cons_succ] at hk
        have hrest := ih k hk
        rw [hrest]

/-- Writing then indexing: the local index table has one entry per sample. -/
theorem buildIndex_length (samples : List (List Nat)) (base : Nat) :
    (buildIndex samples base).length = samples.length := by
  induction samples generalizing base with
  | nil => rfl
  | cons a rest ih => simp [buildIndex, ih]

/-- The entry the index table records for the `g`-th written sample: its
offset is the base plus the bytes of all earlier samples, its length the
sample's byte length. -/
theorem buildIndex_getElem (samples : List (List Nat)) (base g : Nat)
    (s : List Nat) (h : samples[g]? = some s) :
    (buildIndex samples base)[g]? =
      some (base + (samples.take g).flatten.length, s.length) := by
  induction samples generalizing base g with
  | nil => simp at h
  | cons a rest ih =>
    cases g with
    | zero =>
      rw [List.getElem?_cons_zero] at h
      cases h
      simp [buildIndex]
    | succ g =>
      rw [List.getElem?_cons_succ] at h
      simp only [buildIndex, List.getElem?_cons_succ]
      rw [ih (base + a.length) g h]
      simp only [List.take_succ_cons, List.flatten_cons, List.length_append]
      rw [Nat.add_assoc]

/-- Extracting the recorded byte range of the `g`-th sample from the
concatenated payload returns exactly that sample. -/
theorem flatten_extract (samples : List (List Nat)) (g : Nat) (s : List Nat)
    (h : samples[g]? = some s) :
    ((samples.flatten).drop ((samples.take g).flatten.length)).take s.length
      = s := by
  induction samples generalizing g with
  | nil => simp at h
  | cons a rest ih =>
    cases g with
    | zero =>
      rw [List.getElem?_cons_zero] at h
      cases h
      simp only [List.take_zero, List.flatten_nil, List.length_nil,
        List.drop_zero, List.flatten_cons]
      exact List.take_left s rest.flatten
    | succ g =>
      rw [List.getElem?_cons_succ] at h
      simp only [List.take_succ_cons, List.flatten_cons, List.length_append,
        List.drop_append]
      exact ih g h

/-- Round trip at the core level: `get_sample` on the global index of a
written sample returns exactly that sample's bytes. -/
theorem Loader.get_sample_ofSamples (shards : List (List (List Nat))) (g : Nat)
    (s : List Nat) (h : shards.flatten[g]? = some s) :
    (Loader.ofSamples shards).get_sample g = .ok s := by
  unfold Loader.get_sample Loader.ofSamples
  induction shards generalizing g with
  | nil => simp at h
  | cons sh rest ih =>
    rw [List.flatten_cons] at h
    simp only [List.map_cons, resolve]
    by_cases hg : g < sh.length
    · have hsh : sh[g]? = some s := by
        rw [List.getElem?_append_left hg] at h
        exact h
      have hidx : (writeShard sh).local_index = buildIndex sh 0 := rfl
      rw [hidx, buildIndex_getElem sh 0 g s hsh]
      have hdata : (writeShard sh).data = sh.flatten := rfl
      simp only [hdata, Nat.zero_add]
      rw [flatten_extract sh g s hsh]
    · have hge : sh.length ≤ g := Nat.le_of_not_lt hg
      have hnone : (writeShard sh).local_index[g]? = none := by
        rw [List.getElem?_eq_none]
        rw [show (writeShard sh).local_index = buildIndex sh 0 from rfl,
          buildIndex_length]
        exact hge
      rw [hnone]
      have hrest : rest.flatten[g - sh.length]? = some s := by
        rw [List.getElem?_append_right hge] at h
        exact h
      have hlen : (writeShard sh).local_index.length = sh.length := by
        rw [show (writeShard sh).local_index = buildIndex sh 0 from rfl,
          buildIndex_length]
      rw [hlen]
      exact ih (g - sh.length) hrest

/-! ## Claims -/

/-- C2: for every buffer, element type and shape given to `to_numpy`, the
conversion succeeds exactly when the buffer's byte length equals
`product(shape) * size_of(element_type)`, and fails with the shape-mismatch
rejection whenever this equality does not hold. -/
theorem C2_to_numpy_validates_length (buffer : List Nat) (dtype : NpDtype)
    (shape : PyShape) :
    (buffer.length = shape.toDims.prod * dtype.itemsize →
        to_numpy buffer dtype shape =
          .ok { dtype := dtype, shape := shape.toDims, data := buffer }) ∧
    (buffer.length ≠ shape.toDims.prod * dtype.itemsize →
        to_numpy buffer dtype shape = .error .ShapeMismatch) := by
  constructor <;> intro h <;> simp [to_numpy_eq, h]

theorem C2_to_numpy_validates_length_witness :
    to_numpy [7, 8, 9] .uint8 (.ofInt 3) =
        .ok { dtype := .uint8, shape := [3], data := [7, 8, 9] } ∧
    to_numpy [7, 8, 9] .float32 (.ofInt 1) = .error .ShapeMismatch :=
  ⟨(C2_to_numpy_validates_length [7, 8, 9] .uint8 (.ofInt 3)).1 (by decide),
   (C2_to_numpy_validates_length [7, 8, 9] .float32 (.ofInt 1)).2 (by decide)⟩

/-- C1 counterexample: the dtype tag `"float16"` is outside the closed set
of supported element types, yet `to_torch` does not fail with an
`UnsupportedDtype` error — it silently substitutes the default element type
`float32` and succeeds. -/
theorem C1_unsupported_dtype_counterexample :
    "float16" ∉ supportedDtypeTags ∧
    npDtypeOf "float16" = .float32 ∧
    to_torch true [0, 0, 0, 0] "float16" (.ofInt 1) =
      .ok (some { dtype := .float32, shape := [1], data := [0, 0, 0, 0] }) :=
  ⟨by decide, rfl, rfl⟩

/-- C1 amended: for every dtype tag outside the closed set of supported
element types, both dispatch tables of `to_torch` silently substitute the
default element type `float32`, and the conversion never fails with an
`UnsupportedDtype` error. -/
theorem C1_unsupported_dtype_amended (dtype : String)
    (h : dtype ∉ supportedDtypeTags) :
    npDtypeOf dtype = .float32 ∧ torchDtypeOf dtype = .float32 ∧
    ∀ (avail : Bool) (buffer : List Nat) (shape : PyShape),
      to_torch avail buffer dtype shape ≠ .error .UnsupportedDtype := by
  simp only [supportedDtypeTags, List.mem_cons, List.not_mem_nil, or_false,
    not_or] at h
  obtain ⟨h1, h2, h3, h4, h5⟩ := h
  refine ⟨by simp [npDtypeOf, h1, h2, h3, h4, h5],
          by simp [torchDtypeOf, h1, h2, h3, h4, h5], ?_⟩
  intro avail buffer shape
  cases avail
  · simp [to_torch]
  · rw [to_torch_true_eq]
    split <;> simp

theorem C1_unsupported_dtype_amended_witness :
    "int8" ∉ supportedDtypeTags ∧ npDtypeOf "int8" = .float32 :=
  ⟨by decide, (C1_unsupported_dtype_amended "int8" (by decide)).1⟩

/-- C4: whenever `get_batch` succeeds it returns exactly one view per input
index, and the view at every position `k` is the sample view `get_sample`
returns for `indices[k]` — output order equals input order, for any
ordering, any mix of shards and duplicate indices. -/
theorem C4_get_batch_order_preserving (l : Loader) (indices : List Nat)
    (views : List MemView) (h : DataLoader.get_batch l indices = .ok views) :
    views.length = indices.length ∧
    ∀ (k i : Nat), indices[k]? = some i →
      ∃ v, views[k]? = some v ∧ DataLoader.get_sample l i = .ok v := by
  unfold DataLoader.get_batch at h
  cases hb : l.get_batch indices with
  | error e => rw [hb] at h; cases h
  | ok bs =>
    rw [hb] at h
    cases h
    obtain ⟨hlen, hspec⟩ := Loader.get_batch_ok_spec l indices bs hb
    refine ⟨by simp [hlen], ?_⟩
    intro k i hk
    obtain ⟨b, hbk, hsb⟩ := hspec k i hk
    refine ⟨memoryview .bytesObj b, ?_, ?_⟩
    · rw [List.getElem?_map, hbk]
      rfl
    · unfold DataLoader.get_sample
      rw [hsb]

theorem C4_get_batch_order_preserving_witness :
    ([memoryview .bytesObj [4, 5, 6], memoryview .bytesObj [1, 2],
      memoryview .bytesObj [4, 5, 6]] : List MemView).length =
      ([2, 0, 2] : List Nat).length :=
  (C4_get_batch_order_preserving (Loader.ofSamples [[[1, 2], [3]], [[4, 5, 6]]])
    [2, 0, 2]
    [memoryview .bytesObj [4, 5, 6], memoryview .bytesObj [1, 2],
     memoryview .bytesObj [4, 5, 6]] rfl).1

/-- C5: any index sequence containing an invalid index (one at least
`total_samples`) makes `get_batch` fail with `IndexOutOfRange`; no list of
views is produced for the valid prefix. -/
theorem C5_get_batch_fail_fast (l : Loader) (indices : List Nat) (k i : Nat)
    (hk : indices[k]? = some i) (hi : l.total_samples ≤ i) :
    DataLoader.get_batch l indices = .error .IndexOutOfRange := by
  unfold DataLoader.get_batch
  rw [Loader.get_batch_error_of_invalid l indices k i hk hi]

theorem C5_get_batch_fail_fast_witness :
    DataLoader.get_batch (Loader.ofSamples [[[1, 2], [3]], [[4, 5, 6]]])
      [0, 7, 1] = .error .IndexOutOfRange :=
  C5_get_batch_fail_fast (Loader.ofSamples [[[1, 2], [3]], [[4, 5, 6]]])
    [0, 7, 1] 1 7 rfl (by decide)

/-- C6: `get_sample i` fails with `IndexOutOfRange` exactly when
`i ≥ total_samples`; every index below `total_samples` succeeds, and in
particular `get_sample (total_samples - 1)` succeeds whenever the loader
holds at least one sample. -/
theorem C6_get_sample_index_bounds (l : Loader) (i : Nat) :
    (DataLoader.get_sample l i = .error .IndexOutOfRange ↔
      l.total_samples ≤ i) ∧
    (i < l.total_samples → ∃ v, DataLoader.get_sample l i = .ok v) ∧
    (1 ≤ l.total_samples →
      ∃ v, DataLoader.get_sample l (l.total_samples - 1) = .ok v) := by
  have hok : ∀ j, j < l.total_samples →
      ∃ v, DataLoader.get_sample l j = .ok v := by
    intro j hj
    obtain ⟨b, hb⟩ := Loader.get_sample_ok_of_lt l j hj
    exact ⟨memoryview .bytesObj b, by unfold DataLoader.get_sample; rw [hb]⟩
  refine ⟨?_, hok i, fun h1 => hok (l.total_samples - 1) (by omega)⟩
  rw [DataLoader.get_sample_error_iff_core]
  exact Loader.get_sample_error_iff l i

theorem C6_get_sample_index_bounds_witness :
    DataLoader.get_sample (Loader.ofSamples [[[1, 2], [3]], [[4, 5, 6]]]) 3 =
      .error .IndexOutOfRange :=
  (C6_get_sample_index_bounds (Loader.ofSamples [[[1, 2], [3]], [[4, 5, 6]]])
    3).1.mpr (by decide)

/-- C7: round trip — for every sample written into a shard of a valid
shard set, `get_sample` on that sample's global index returns a view whose
bytes are byte-for-byte the bytes originally written, with no
reinterpretation. -/
theorem C7_round_trip (shards : List (List (List Nat))) (g : Nat)
    (s : List Nat) (h : shards.flatten[g]? = some s) :
    DataLoader.get_sample (Loader.ofSamples shards) g =
      .ok (memoryview .bytesObj s) := by
  unfold DataLoader.get_sample
  rw [Loader.get_sample_ofSamples shards g s h]

theorem C7_round_trip_witness :
    DataLoader.get_sample (Loader.ofSamples [[[1, 2], [3]], [[4, 5, 6]]]) 2 =
      .ok (memoryview .bytesObj [4, 5, 6]) :=
  C7_round_trip [[[1, 2], [3]], [[4, 5, 6]]] 2 [4, 5, 6] rfl

/-- C8: every view returned by `get_sample` or `get_batch` is read-only —
its `readonly` flag is set and any attempted write through it fails with
`TypeError`, so no caller can mutate the underlying sample bytes. -/
theorem C8_views_read_only (l : Loader) :
    (∀ (i : Nat) (v : MemView), DataLoader.get_sample l i = .ok v →
      v.readonly = true ∧ ∀ j x, v.store j x = .error .TypeError) ∧
    (∀ (indices : List Nat) (vs : List MemView),
      DataLoader.get_batch l indices = .ok vs →
      ∀ v ∈ vs, v.readonly = true ∧ ∀ j x, v.store j x = .error .TypeError) := by
  have hro : ∀ b : List Nat, (memoryview .bytesObj b).readonly = true :=
    fun b => rfl
  have hst : ∀ (v : MemView), v.readonly = true →
      ∀ j x, v.store j x = .error .TypeError := by
    intro v hv j x
    simp [MemView.store, hv]
  constructor
  · intro i v hv
    unfold DataLoader.get_sample at hv
    cases hs : l.get_sample i with
    | error e => rw [hs] at hv; cases hv
    | ok b =>
      rw [hs] at hv
      cases hv
      exact ⟨hro b, hst _ (hro b)⟩
  · intro indices vs hvs v hv
    unfold DataLoader.get_batch at hvs
    cases hb : l.get_batch indices with
    | error e => rw [hb] at hvs; cases hvs
    | ok bs =>
      rw [hb] at hvs
      cases hvs
      obtain ⟨b, _, rfl⟩ := List.mem_map.mp hv
      exact ⟨hro b, hst _ (hro b)⟩

theorem C8_views_read_only_witness :
    (memoryview .bytesObj [1, 2]).readonly = true :=
  ((C8_views_read_only (Loader.ofSamples [[[1, 2]]])).1 0
    (memoryview .bytesObj [1, 2]) rfl).1

/-- C9: calling `prefetch_next` with the count argument omitted is the same
as calling `prefetch_next(1)`: the count defaults to 1 at the public Python
interface. -/
theorem C9_prefetch_next_default_count (s : PrefetchState) :
    DataLoader.prefetch_next s none = DataLoader.prefetch_next s (some 1) := rfl

/-- C10: whenever the PyTorch package is not importable, `to_torch` returns
`None` for every buffer, dtype string and shape; the import failure is
never propagated to the caller as an error. -/
theorem C10_to_torch_none_without_torch (buffer : List Nat) (dtype : String)
    (shape : PyShape) :
    to_torch false buffer dtype shape = .ok none := rfl

end ZeroCopyLoader
